import Mathlib

/-!
Verification of the task-bot core: a shallow embedding of the repository's
task repository (database/crud.py), the callback key-value codec
(bot/handlers/list_tasks.py, bot/keyboards/listing.py) and the add-task
content validation (bot/handlers/add_task.py), together with proofs of the
specified properties.

Strings are modelled as `List Char` (`Str`), UTC instants as `Int`
(minutes since the epoch; only additive structure of timestamps is used),
and the task table as a `List Task` of rows.  SQL `UPDATE ... WHERE
id = :tid AND user_id = :uid` statements are modelled as a map over the
rows touching exactly the rows matching the predicate, with the reported
rowcount positive iff some row matches.
-/

namespace DoTaskBot

/-- Python strings, modelled as lists of characters. -/
abbrev Str := List Char

/-- Python `str` whitespace test used by `str.strip()` / `str.split()`
(ASCII whitespace: space, tab, newline, carriage return, vertical tab,
form feed). -/
def pyIsSpace (c : Char) : Bool :=
  c == ' ' || c == '\t' || c == '\n' || c == '\r' || c.toNat == 11 || c.toNat == 12

/-- Python `s.strip()`: drop whitespace from both ends. -/
def pyStrip (s : Str) : Str :=
  ((s.dropWhile pyIsSpace).reverse.dropWhile pyIsSpace).reverse

/-- Accumulator worker for `str.split()` with no separator: split on runs of
whitespace, discarding empty pieces.  `cur` holds the current word reversed. -/
def splitWSAux : Str → Str → List Str
  | [], cur => if cur = [] then [] else [cur.reverse]
  | c :: rest, cur =>
    if pyIsSpace c then
      if cur = [] then splitWSAux rest [] else cur.reverse :: splitWSAux rest []
    else splitWSAux rest (c :: cur)

/-- Python `text.split()` (no separator argument). -/
def pySplitWS (s : Str) : List Str := splitWSAux s []

/-- Python `" ".join(words)`. -/
def joinSpace (ws : List Str) : Str := List.intercalate [' '] ws

/-- `bot/handlers/add_task.py::_normalize_content`: strip, condense
whitespace runs to single spaces, and cap the length at 255
(`CONTENT_MAX_LEN`). -/
def _normalize_content (s : Str) : Str :=
  let t := pyStrip s
  let n := joinSpace (pySplitWS t)
  if 255 < n.length then n.take 255 else n

/-- The ASCII digit character for `n` (`n < 10`). -/
def digitChar (n : Nat) : Char := Char.ofNat (48 + n)

/-- ASCII digit test (characters `'0'..'9'`). -/
def isDigitCh (c : Char) : Bool := 48 ≤ c.toNat && c.toNat ≤ 57

/-- Fuel-indexed worker producing the decimal digits of `n` in front of
`acc` (the rendering of Python `str(n)` for natural `n`). -/
def natToStrAux : Nat → Nat → Str → Str
  | 0, _, acc => acc
  | fuel + 1, n, acc =>
    if n < 10 then digitChar (n % 10) :: acc
    else natToStrAux fuel (n / 10) (digitChar (n % 10) :: acc)

/-- Python `str(n)` for a natural number. -/
def natToStr (n : Nat) : Str := natToStrAux (n + 1) n []

/-- Python `str(i)` for an integer. -/
def intToStr (i : Int) : Str :=
  if i < 0 then '-' :: natToStr (-i).toNat else natToStr i.toNat

/-- Numeric value of an ASCII digit character. -/
def digitVal? (c : Char) : Option Nat :=
  if 48 ≤ c.toNat ∧ c.toNat ≤ 57 then some (c.toNat - 48) else none

/-- Left-to-right decimal accumulation over a digit string; fails on the
first non-digit. -/
def parseDigitsAux : Str → Nat → Option Nat
  | [], acc => some acc
  | c :: cs, acc =>
    match digitVal? c with
    | some d => parseDigitsAux cs (10 * acc + d)
    | none => none

/-- Parse a non-empty all-digit string. -/
def parseDigits : Str → Option Nat
  | [] => none
  | c :: cs => parseDigitsAux (c :: cs) 0

/-- Python `int(s)` on a string, restricted to ASCII inputs without
underscore separators: optional surrounding whitespace, an optional sign,
then decimal digits.  `none` models `int` raising `ValueError`. -/
def pyInt (s : Str) : Option Int :=
  match pyStrip s with
  | [] => none
  | c :: rest =>
    if c = '-' then (parseDigits rest).map (fun m => -(m : Int))
    else if c = '+' then (parseDigits rest).map (fun m => (m : Int))
    else (parseDigits (c :: rest)).map (fun m => (m : Int))

/-- `bot/handlers/list_tasks.py::_safe_int`: `int(v)` if it parses and is
positive, otherwise the default. -/
def _safe_int (v : Str) (dflt : Int) : Int :=
  match pyInt v with
  | some x => if 0 < x then x else dflt
  | none => dflt

/-- The `int | str | None` argument domain of
`database/crud.py::_coerce_positive_int`. -/
inductive PyVal where
  | vint (i : Int)
  | vstr (s : Str)
  | vnone
  deriving DecidableEq

/-- `database/crud.py::_coerce_positive_int`: `x = int(val) if val is not
None else default`, returning `default` on a parse failure and otherwise
`max(minimum, x)`. -/
def _coerce_positive_int (val : PyVal) (dflt minimum : Int) : Int :=
  match val with
  | .vnone => max minimum dflt
  | .vint i => max minimum i
  | .vstr s =>
    match pyInt s with
    | some x => max minimum x
    | none => dflt

/-- `database/models.py::TaskPriority`. -/
inductive TaskPriority where
  | HIGH
  | MEDIUM
  | LOW
  deriving DecidableEq

/-- A row of the `tasks` table (`database/models.py::Task`).  Timestamps
are UTC instants in minutes. -/
structure Task where
  id : Int
  user_id : Int
  content : Str
  due_date : Option Int
  priority : TaskPriority
  is_done : Bool
  created_at : Int
  updated_at : Int
  done_at : Option Int
  deriving DecidableEq

/-- The task table. -/
abbrev DB := List Task

/-- The ownership-scoped predicate `Task.id == task_id AND Task.user_id ==
user_id` used by every mutation in `database/crud.py`. -/
def taskMatches (tid uid : Int) (t : Task) : Bool :=
  t.id == tid && t.user_id == uid

/-- `database/crud.py::create_task`: builds a fresh row with
`content[:255]`, `is_done=False`, `done_at=None`; `nid` stands for the
autoincrement id assigned at flush. -/
def create_task (now nid uid : Int) (content : Str) (due : Option Int)
    (prio : TaskPriority) (db : DB) : DB × Task :=
  let t : Task :=
    { id := nid
      user_id := uid
      content := content.take 255
      due_date := due
      priority := prio
      is_done := false
      created_at := now
      updated_at := now
      done_at := none }
  (db ++ [t], t)

/-- The per-row effect of the `set_task_done` UPDATE: set `is_done`,
`done_at = now if done else None`, and `updated_at`. -/
def setDoneUpd (now : Int) (done : Bool) (t : Task) : Task :=
  { t with
    is_done := done
    done_at := (if done then some now else none)
    updated_at := now }

/-- `database/crud.py::set_task_done`: one UPDATE scoped by
`(task_id, user_id)` applying `setDoneUpd` to the matching rows; returns
whether the rowcount was positive. -/
def set_task_done (now uid tid : Int) (done : Bool) (db : DB) : DB × Bool :=
  (db.map fun t => if taskMatches tid uid t then setDoneUpd now done t else t,
    db.any (taskMatches tid uid))

/-- `database/crud.py::delete_task_by_id`: one DELETE scoped by
`(task_id, user_id)`. -/
def delete_task_by_id (uid tid : Int) (db : DB) : DB × Bool :=
  (db.filter fun t => !(taskMatches tid uid t), db.any (taskMatches tid uid))

/-- `database/crud.py::update_task_content`: one UPDATE scoped by
`(task_id, user_id)` setting `content[:255]` and `updated_at`. -/
def update_task_content (now uid tid : Int) (newContent : Str) (db : DB) :
    DB × Bool :=
  (db.map fun t =>
      if taskMatches tid uid t then
        { t with content := newContent.take 255, updated_at := now }
      else t,
    db.any (taskMatches tid uid))

/-- `database/crud.py::snooze_task_by_id`: select the owned row (or return
`False` untouched), then UPDATE `due_date := (due_date or now) +
timedelta(minutes=_coerce_positive_int(delta_minutes, 15))`. -/
def snooze_task_by_id (now uid tid : Int) (delta : PyVal) (db : DB) :
    DB × Bool :=
  match db.find? (taskMatches tid uid) with
  | none => (db, false)
  | some task =>
    let base := task.due_date.getD now
    let minutes := _coerce_positive_int delta 15 1
    let newDue := base + minutes
    (db.map fun t =>
        if taskMatches tid uid t then
          { t with due_date := some newDue, updated_at := now }
        else t,
      db.any (taskMatches tid uid))

/-- `database/crud.py::set_task_priority`. -/
def set_task_priority (now uid tid : Int) (prio : TaskPriority) (db : DB) :
    DB × Bool :=
  (db.map fun t =>
      if taskMatches tid uid t then { t with priority := prio, updated_at := now }
      else t,
    db.any (taskMatches tid uid))

/-- `database/crud.py::set_task_due_date`. -/
def set_task_due_date (now uid tid : Int) (due : Option Int) (db : DB) :
    DB × Bool :=
  (db.map fun t =>
      if taskMatches tid uid t then { t with due_date := due, updated_at := now }
      else t,
    db.any (taskMatches tid uid))

/-- The add-task content step followed by the repository create
(`bot/handlers/add_task.py::receive_content` + `_save_task` +
`database/crud.py::create_task`): normalize, reject below the 3-character
minimum (`none` models the validation re-prompt), otherwise store. -/
def receive_content_create (now nid uid : Int) (text : Str) (due : Option Int)
    (prio : TaskPriority) (db : DB) : Option (DB × Task) :=
  let content := _normalize_content text
  if content.length < 3 then none
  else some (create_task now nid uid content due prio db)

/-- `done_at` is non-null exactly when the completion flag is set
(the `tasks_done_at_consistency` check of `database/models.py`, strengthened
to the biconditional stated by the spec). -/
def taskInvB (t : Task) : Bool := t.done_at.isSome == t.is_done

/-- All rows satisfy the `done_at`/`is_done` invariant. -/
def dbInvB (db : DB) : Bool := db.all taskInvB

/-- Python `s.split(sep, 1)`: the part before the first separator, and
`some` remainder when the separator occurs. -/
def pySplit1 (sep : Char) : Str → Str × Option Str
  | [] => ([], none)
  | c :: rest =>
    if c = sep then ([], some rest)
    else (c :: (pySplit1 sep rest).1, (pySplit1 sep rest).2)

/-- Python `s.split(sep)` for a one-character separator (keeps empty
pieces; the empty string splits to `[""]`). -/
def pySplit (sep : Char) : Str → List Str
  | [] => [[]]
  | c :: rest =>
    if c = sep then [] :: pySplit sep rest
    else
      match pySplit sep rest with
      | [] => [[c]]
      | h :: t => (c :: h) :: t

/-- Python `s.split(sep, 2)`: at most three parts. -/
def pySplit2 (sep : Char) (s : Str) : List Str :=
  let p1 := pySplit1 sep s
  match p1.2 with
  | none => [p1.1]
  | some r1 =>
    let p2 := pySplit1 sep r1
    match p2.2 with
    | none => [p1.1, p2.1]
    | some r2 => [p1.1, p2.1, r2]

/-- Python `sep in s` membership test for a one-character `sep`. -/
def strContains (sep : Char) : Str → Bool
  | [] => false
  | c :: rest => if c = sep then true else strContains sep rest

/-- Python `dict` assignment `d[k] = v`: overwrite in place, or append in
insertion order. -/
def dictSet (d : List (Str × Str)) (k v : Str) : List (Str × Str) :=
  if d.any (fun q => q.1 == k) then
    d.map (fun q => if q.1 == k then (k, v) else q)
  else d ++ [(k, v)]

/-- Python `d.get(k, dflt)`. -/
def dictGet (d : List (Str × Str)) (k dflt : Str) : Str :=
  match d.find? (fun q => q.1 == k) with
  | some q => q.2
  | none => dflt

/-- `bot/handlers/list_tasks.py::_parse_kv`: split off the head before the
first `;`, then fold the remaining `;`-chunks into a dict, skipping chunks
that are empty or have no `=`, splitting each kept chunk at its first `=`. -/
def _parse_kv (sIn : Str) : Str × List (Str × Str) :=
  let pr := pySplit1 ';' sIn
  let head := pr.1
  let rest := pr.2.getD []
  let kv :=
    if rest = [] then []
    else
      (pySplit ';' rest).foldl
        (fun acc chunk =>
          if chunk = [] then acc
          else if strContains '=' chunk = false then acc
          else
            let kvp := pySplit1 '=' chunk
            dictSet acc kvp.1 (kvp.2.getD [])) []
  (head, kv)

/-- `bot/handlers/list_tasks.py::_ctx_from_kv`: read the cursor fields out
of the parsed dict with the handler defaults
(`s="o"`, `p=_safe_int(kv.get("p","1"),1)`, `f="A"`, `d="A"`). -/
def _ctx_from_kv (kv : List (Str × Str)) : Str × Int × Str × Str :=
  (dictGet kv ['s'] ['o'],
   _safe_int (dictGet kv ['p'] ['1']) 1,
   dictGet kv ['f'] ['A'],
   dictGet kv ['d'] ['A'])

/-- `bot/keyboards/listing.py::_join_kv`: the f-string
`"{prefix};s={s};p={p};f={f};d={d}"` (written as nested list
concatenation).  The `__debug__`-only length assertion does not change the
returned value and is omitted. -/
def _join_kv (verb s : Str) (p : Int) (f d : Str) : Str :=
  verb ++ ';' :: 's' :: '=' ::
    (s ++ ';' :: 'p' :: '=' ::
      (intToStr p ++ ';' :: 'f' :: '=' ::
        (f ++ ';' :: 'd' :: '=' :: d)))

/-- The task-id extraction of the `tact:*` handlers
(`bot/handlers/list_tasks.py::act_done` etc.): `head.split(":", 2)` must
unpack into exactly three names and the third must parse as `int`;
`none` models the caught exception branch answering "invalid data". -/
def act_head_task_id (head : Str) : Option Int :=
  match pySplit2 ':' head with
  | [_, _, idStr] => pyInt idStr
  | _ => none

/-- Full decoding of an action callback token: task id from the head (if
valid) and the listing cursor from the key-value tail. -/
def decode_act (data : Str) : Option Int × (Str × Int × Str × Str) :=
  let pr := _parse_kv data
  (act_head_task_id pr.1, _ctx_from_kv pr.2)

/-- Decoding of a `tlist` navigation token
(`bot/handlers/list_tasks.py::on_list_nav`). -/
def decode_list_nav (data : Str) : Str × Int × Str × Str :=
  _ctx_from_kv (_parse_kv data).2

/-- The user-visible result of a callback answer in the action handlers. -/
inductive CbAnswer where
  | invalidData
  | ok
  | err
  deriving DecidableEq

/-- `bot/handlers/list_tasks.py::act_done` restricted to its repository
effect: on an undecodable token answer "invalid data" and perform no
mutation; otherwise run `set_task_done(..., done=True)`. -/
def act_done_step (data : Str) (uid now : Int) (db : DB) : DB × CbAnswer :=
  match act_head_task_id (_parse_kv data).1 with
  | none => (db, CbAnswer.invalidData)
  | some tid =>
    let r := set_task_done now uid tid true db
    (r.1, if r.2 then CbAnswer.ok else CbAnswer.err)

/-- `bot/keyboards/listing.py::_clamp_page`:
`total_pages = max(1, ceil(max(0, total) / max(1, per_page)))` and
`max(1, min(max(1, int(page or 1)), total_pages))`.  The float `ceil` is
exact on these integer inputs and is modelled as integer ceiling
division. -/
def _clamp_page (page per_page total : Int) : Int :=
  let t : Nat := (max 0 total).toNat
  let pp : Nat := (max 1 per_page).toNat
  let total_pages : Int := max 1 (((t + pp - 1) / pp : Nat) : Int)
  let p0 : Int := if page = 0 then 1 else page
  max 1 (min (max 1 p0) total_pages)

/-- Modelled from the spec: `page = clamp(requestedPage, 1,
ceil(totalCount / pageSize))`, with `ceil(0/pageSize)` treated as 1
(section 4.3 of the spec), for comparison with `_clamp_page`. -/
def clamp_page_spec (page per_page total : Int) : Int :=
  let t : Nat := (max 0 total).toNat
  let pp : Nat := (max 1 per_page).toNat
  let total_pages : Int := max 1 (((t + pp - 1) / pp : Nat) : Int)
  max 1 (min page total_pages)

/-- `bot/keyboards/listing.py::_PRIO_CYCLE` together with the
`.get(prio_filter, "A")` lookup of `build_listing_keyboard`. -/
def _PRIO_CYCLE (c : Char) : Char :=
  match c with
  | 'A' => 'H'
  | 'H' => 'M'
  | 'M' => 'L'
  | 'L' => 'A'
  | _ => 'A'

/-- `bot/keyboards/listing.py::_DATE_CYCLE` together with the
`.get(date_filter, "A")` lookup of `build_listing_keyboard`. -/
def _DATE_CYCLE (c : Char) : Char :=
  match c with
  | 'A' => 'T'
  | 'T' => 'W'
  | 'W' => 'O'
  | 'O' => 'N'
  | 'N' => 'A'
  | _ => 'A'

/-- A sample task row for concrete instantiations. -/
def sampleTask (i u : Int) (due : Option Int) : Task :=
  { id := i
    user_id := u
    content := ['a', 'b', 'c']
    due_date := due
    priority := TaskPriority.MEDIUM
    is_done := false
    created_at := 0
    updated_at := 0
    done_at := none }

/-- The task stored by the add-task flow for the input
`" buy  milk "` (used to instantiate the creation theorem). -/
def milkTask : Task :=
  { id := 1
    user_id := 1
    content := ['b', 'u', 'y', ' ', 'm', 'i', 'l', 'k']
    due_date := none
    priority := TaskPriority.MEDIUM
    is_done := false
    created_at := 0
    updated_at := 0
    done_at := none }

/-! ## Helper lemmas -/

theorem dropWhile_eq_self_of_all (p : Char → Bool) (s : Str)
    (h : ∀ c ∈ s, p c = false) : s.dropWhile p = s := by
  cases s with
  | nil => rfl
  | cons c cs => simp [List.dropWhile_cons, h c (by simp)]

theorem pyStrip_eq_self (s : Str) (h : ∀ c ∈ s, pyIsSpace c = false) :
    pyStrip s = s := by
  unfold pyStrip
  rw [dropWhile_eq_self_of_all _ _ h]
  rw [dropWhile_eq_self_of_all _ _ (fun c hc => h c (List.mem_reverse.mp hc))]
  exact List.reverse_reverse s

theorem digitChar_isDigit : ∀ d, d < 10 → isDigitCh (digitChar d) = true := by
  decide

theorem digitVal?_digitChar : ∀ d, d < 10 → digitVal? (digitChar d) = some d := by
  decide

theorem natToStrAux_append (fuel : Nat) :
    ∀ n acc, natToStrAux fuel n acc = natToStrAux fuel n [] ++ acc := by
  induction fuel with
  | zero => intro n acc; rfl
  | succ fuel ih =>
    intro n acc
    simp only [natToStrAux]
    by_cases h : n < 10
    · simp [h]
    · rw [if_neg h, if_neg h, ih (n / 10) (digitChar (n % 10) :: acc),
        ih (n / 10) [digitChar (n % 10)], List.append_assoc]
      rfl

theorem natToStrAux_digits (fuel : Nat) :
    ∀ n acc, (∀ c ∈ acc, isDigitCh c = true) →
      ∀ c ∈ natToStrAux fuel n acc, isDigitCh c = true := by
  induction fuel with
  | zero => intro n acc h; exact h
  | succ fuel ih =>
    intro n acc h c hc
    simp only [natToStrAux] at hc
    by_cases hn : n < 10
    · rw [if_pos hn] at hc
      rcases List.mem_cons.mp hc with rfl | hc
      · exact digitChar_isDigit _ (Nat.mod_lt _ (by omega))
      · exact h c hc
    · rw [if_neg hn] at hc
      refine ih (n / 10) _ ?_ c hc
      intro c2 hc2
      rcases List.mem_cons.mp hc2 with rfl | hc2
      · exact digitChar_isDigit _ (Nat.mod_lt _ (by omega))
      · exact h c2 hc2

theorem natToStr_digits (n : Nat) : ∀ c ∈ natToStr n, isDigitCh c = true :=
  natToStrAux_digits (n + 1) n [] (by simp)

theorem natToStrAux_ne_nil (fuel : Nat) :
    ∀ n acc, natToStrAux (fuel + 1) n acc ≠ [] := by
  induction fuel with
  | zero =>
    intro n acc
    simp only [natToStrAux]
    by_cases h : n < 10 <;> simp [h, natToStrAux]
  | succ fuel ih =>
    intro n acc
    simp only [natToStrAux]
    by_cases h : n < 10
    · simp [h]
    · rw [if_neg h]
      exact ih _ _

theorem natToStr_ne_nil (n : Nat) : natToStr n ≠ [] :=
  natToStrAux_ne_nil n n []

theorem parseDigitsAux_append (s t : Str) :
    ∀ a, parseDigitsAux (s ++ t) a = (parseDigitsAux s a).bind (parseDigitsAux t) := by
  induction s with
  | nil => intro a; rfl
  | cons c cs ih =>
    intro a
    simp only [List.cons_append, parseDigitsAux]
    cases h : digitVal? c with
    | some d => simp [ih]
    | none => rfl

theorem parseDigitsAux_natToStrAux :
    ∀ fuel n, n < fuel → parseDigitsAux (natToStrAux fuel n []) 0 = some n := by
  intro fuel
  induction fuel with
  | zero => intro n h; omega
  | succ fuel ih =>
    intro n h
    simp only [natToStrAux]
    by_cases hn : n < 10
    · rw [if_pos hn]
      rw [Nat.mod_eq_of_lt hn]
      simp [parseDigitsAux, digitVal?_digitChar n hn]
    · rw [if_neg hn]
      have hdiv : n / 10 < fuel := by
        have := Nat.div_lt_self (show 0 < n by omega) (show 1 < 10 by omega)
        omega
      rw [natToStrAux_append fuel (n / 10) [digitChar (n % 10)],
        parseDigitsAux_append, ih (n / 10) hdiv]
      simp [parseDigitsAux, digitVal?_digitChar (n % 10) (Nat.mod_lt _ (by omega)),
        Nat.div_add_mod n 10]

theorem parseDigits_natToStr (n : Nat) : parseDigits (natToStr n) = some n := by
  have h := parseDigitsAux_natToStrAux (n + 1) n (Nat.lt_succ_self n)
  cases hne : natToStr n with
  | nil => exact absurd hne (natToStr_ne_nil n)
  | cons c cs =>
    show parseDigitsAux (c :: cs) 0 = some n
    rw [← hne]
    exact h

theorem isDigitCh_bounds (c : Char) (h : isDigitCh c = true) :
    48 ≤ c.toNat ∧ c.toNat ≤ 57 := by
  simp only [isDigitCh, Bool.and_eq_true, decide_eq_true_eq] at h
  exact h

theorem isDigitCh_ne_semi (c : Char) (h : isDigitCh c = true) : c ≠ ';' := by
  have hb := isDigitCh_bounds c h
  intro he
  subst he
  revert hb
  decide

theorem isDigitCh_ne_colon (c : Char) (h : isDigitCh c = true) : c ≠ ':' := by
  have hb := isDigitCh_bounds c h
  intro he
  subst he
  revert hb
  decide

theorem isDigitCh_ne_minus (c : Char) (h : isDigitCh c = true) : c ≠ '-' := by
  have hb := isDigitCh_bounds c h
  intro he
  subst he
  revert hb
  decide

theorem isDigitCh_ne_plus (c : Char) (h : isDigitCh c = true) : c ≠ '+' := by
  have hb := isDigitCh_bounds c h
  intro he
  subst he
  revert hb
  decide

theorem isDigitCh_not_space (c : Char) (h : isDigitCh c = true) :
    pyIsSpace c = false := by
  have hb := isDigitCh_bounds c h
  simp only [pyIsSpace, Bool.or_eq_false_iff]
  refine ⟨⟨⟨⟨⟨?_, ?_⟩, ?_⟩, ?_⟩, ?_⟩, ?_⟩ <;>
    · rw [beq_eq_false_iff_ne]
      first
      | intro he; subst he; revert hb; decide
      | omega

theorem pyInt_natToStr (n : Nat) : pyInt (natToStr n) = some (n : Int) := by
  have hd := natToStr_digits n
  have hs : pyStrip (natToStr n) = natToStr n :=
    pyStrip_eq_self _ (fun c hc => isDigitCh_not_space c (hd c hc))
  cases hne : natToStr n with
  | nil => exact absurd hne (natToStr_ne_nil n)
  | cons c cs =>
    have hcd : isDigitCh c = true := hd c (by rw [hne]; simp)
    rw [hne] at hs
    unfold pyInt
    rw [hs]
    show (if c = '-' then _ else if c = '+' then _
      else (parseDigits (c :: cs)).map (fun m => (m : Int))) = some (n : Int)
    rw [if_neg (isDigitCh_ne_minus c hcd), if_neg (isDigitCh_ne_plus c hcd)]
    rw [← hne, parseDigits_natToStr n]
    rfl

theorem pySplit1_no_sep (sep : Char) (a : Str) (h : ∀ c ∈ a, c ≠ sep) :
    pySplit1 sep a = (a, none) := by
  induction a with
  | nil => rfl
  | cons c cs ih =>
    simp only [pySplit1]
    rw [if_neg (h c (by simp)), ih (fun c2 hc2 => h c2 (by simp [hc2]))]

theorem pySplit1_append (sep : Char) (a b : Str) (h : ∀ c ∈ a, c ≠ sep) :
    pySplit1 sep (a ++ sep :: b) = (a, some b) := by
  induction a with
  | nil => simp [pySplit1]
  | cons c cs ih =>
    simp only [List.cons_append, pySplit1, List.append_eq]
    rw [if_neg (h c (by simp)), ih (fun c2 hc2 => h c2 (by simp [hc2]))]

theorem pySplit_no_sep (sep : Char) (a : Str) (h : ∀ c ∈ a, c ≠ sep) :
    pySplit sep a = [a] := by
  induction a with
  | nil => rfl
  | cons c cs ih =>
    simp only [pySplit]
    rw [if_neg (h c (by simp)), ih (fun c2 hc2 => h c2 (by simp [hc2]))]

theorem pySplit_append (sep : Char) (a b : Str) (h : ∀ c ∈ a, c ≠ sep) :
    pySplit sep (a ++ sep :: b) = a :: pySplit sep b := by
  induction a with
  | nil => simp [pySplit]
  | cons c cs ih =>
    simp only [List.cons_append, pySplit, List.append_eq]
    rw [if_neg (h c (by simp)), ih (fun c2 hc2 => h c2 (by simp [hc2]))]

theorem pySplit1_key (k : Char) (v : Str) (hk : k ≠ '=') :
    pySplit1 '=' (k :: '=' :: v) = ([k], some v) := by
  simp [pySplit1, hk]

theorem parse_kv_join (verb s ps f d : Str)
    (hv : ∀ c ∈ verb, c ≠ ';') (hs : ∀ c ∈ s, c ≠ ';')
    (hps : ∀ c ∈ ps, c ≠ ';') (hf : ∀ c ∈ f, c ≠ ';')
    (hd : ∀ c ∈ d, c ≠ ';') :
    _parse_kv (verb ++ ';' :: 's' :: '=' ::
        (s ++ ';' :: 'p' :: '=' ::
          (ps ++ ';' :: 'f' :: '=' ::
            (f ++ ';' :: 'd' :: '=' :: d)))) =
      (verb, [(['s'], s), (['p'], ps), (['f'], f), (['d'], d)]) := by
  have hc1 : ∀ c ∈ 's' :: '=' :: s, c ≠ ';' := by
    intro c hc
    rcases List.mem_cons.mp hc with rfl | hc
    · decide
    rcases List.mem_cons.mp hc with rfl | hc
    · decide
    · exact hs c hc
  have hc2 : ∀ c ∈ 'p' :: '=' :: ps, c ≠ ';' := by
    intro c hc
    rcases List.mem_cons.mp hc with rfl | hc
    · decide
    rcases List.mem_cons.mp hc with rfl | hc
    · decide
    · exact hps c hc
  have hc3 : ∀ c ∈ 'f' :: '=' :: f, c ≠ ';' := by
    intro c hc
    rcases List.mem_cons.mp hc with rfl | hc
    · decide
    rcases List.mem_cons.mp hc with rfl | hc
    · decide
    · exact hf c hc
  have hc4 : ∀ c ∈ 'd' :: '=' :: d, c ≠ ';' := by
    intro c hc
    rcases List.mem_cons.mp hc with rfl | hc
    · decide
    rcases List.mem_cons.mp hc with rfl | hc
    · decide
    · exact hd c hc
  simp only [_parse_kv]
  rw [pySplit1_append ';' verb _ hv]
  simp only [Option.getD_some]
  rw [if_neg (by simp)]
  rw [show 's' :: '=' :: (s ++ ';' :: 'p' :: '=' ::
        (ps ++ ';' :: 'f' :: '=' :: (f ++ ';' :: 'd' :: '=' :: d))) =
      ('s' :: '=' :: s) ++ ';' :: ('p' :: '=' ::
        (ps ++ ';' :: 'f' :: '=' :: (f ++ ';' :: 'd' :: '=' :: d))) from by simp]
  rw [pySplit_append ';' _ _ hc1]
  rw [show 'p' :: '=' :: (ps ++ ';' :: 'f' :: '=' :: (f ++ ';' :: 'd' :: '=' :: d)) =
      ('p' :: '=' :: ps) ++ ';' :: ('f' :: '=' :: (f ++ ';' :: 'd' :: '=' :: d)) from by simp]
  rw [pySplit_append ';' _ _ hc2]
  rw [show 'f' :: '=' :: (f ++ ';' :: 'd' :: '=' :: d) =
      ('f' :: '=' :: f) ++ ';' :: ('d' :: '=' :: d) from by simp]
  rw [pySplit_append ';' _ _ hc3]
  rw [pySplit_no_sep ';' _ hc4]
  simp only [List.foldl]
  rw [if_neg (by simp), if_neg (by simp [strContains])]
  rw [pySplit1_key 's' s (by decide)]
  rw [if_neg (by simp), if_neg (by simp [strContains])]
  rw [pySplit1_key 'p' ps (by decide)]
  rw [if_neg (by simp), if_neg (by simp [strContains])]
  rw [pySplit1_key 'f' f (by decide)]
  rw [if_neg (by simp), if_neg (by simp [strContains])]
  rw [pySplit1_key 'd' d (by decide)]
  simp [dictSet]

theorem mem_no_semi (s : Str) (l : List Str)
    (hl : ∀ x ∈ l, ∀ c ∈ x, c ≠ ';') (hs : s ∈ l) : ∀ c ∈ s, c ≠ ';' :=
  fun c hc => hl s hs c hc

theorem natToStr_no_semi (n : Nat) : ∀ c ∈ natToStr n, c ≠ ';' :=
  fun c hc => isDigitCh_ne_semi c (natToStr_digits n c hc)

theorem intToStr_of_nonneg (p : Int) (hp : 0 ≤ p) :
    intToStr p = natToStr p.toNat := by
  simp [intToStr]
  omega

theorem ctx_from_kv_four (s ps f d : Str) :
    _ctx_from_kv [(['s'], s), (['p'], ps), (['f'], f), (['d'], d)] =
      (s, _safe_int ps 1, f, d) := rfl

theorem safe_int_natToStr (n : Nat) (hn : 1 ≤ n) :
    _safe_int (natToStr n) 1 = (n : Int) := by
  simp only [_safe_int, pyInt_natToStr n]
  rw [if_pos (by exact_mod_cast hn)]

theorem act_head_done (tid : Nat) :
    act_head_task_id (['t', 'a', 'c', 't', ':', 'd', 'o', 'n', 'e', ':'] ++ natToStr tid) =
      some (tid : Int) := by
  show act_head_task_id
      (['t', 'a', 'c', 't'] ++ ':' :: (['d', 'o', 'n', 'e'] ++ ':' :: natToStr tid)) = _
  simp only [act_head_task_id, pySplit2]
  rw [pySplit1_append ':' ['t', 'a', 'c', 't'] _ (by decide)]
  simp only
  rw [pySplit1_append ':' ['d', 'o', 'n', 'e'] _ (by decide)]
  simp only
  exact pyInt_natToStr tid

/-! ## C4: codec round-trip -/

/-- C4: for every valid cursor/action token (status in o or d, page at
least 1, priority filter in A/H/M/L, date filter in A/T/W/O/N, and a task
id for action tokens), decoding the token built by `_join_kv` recovers
exactly the original fields, both for `tlist` navigation tokens and for
`tact:done:<id>` action tokens. -/
theorem c4_codec_roundtrip (s f d : Str) (p tid : Nat)
    (hsm : s ∈ [['o'], ['d']])
    (hfm : f ∈ [['A'], ['H'], ['M'], ['L']])
    (hdm : d ∈ [['A'], ['T'], ['W'], ['O'], ['N']])
    (hp : 1 ≤ p) :
    decode_list_nav (_join_kv ['t', 'l', 'i', 's', 't'] s (p : Int) f d) =
        (s, (p : Int), f, d)
      ∧ decode_act (_join_kv (['t', 'a', 'c', 't', ':', 'd', 'o', 'n', 'e', ':'] ++ natToStr tid)
            s (p : Int) f d) =
          (some (tid : Int), (s, (p : Int), f, d)) := by
  have hns := mem_no_semi s _ (by decide) hsm
  have hnf := mem_no_semi f _ (by decide) hfm
  have hnd := mem_no_semi d _ (by decide) hdm
  have hip : intToStr (p : Int) = natToStr p := by
    rw [intToStr_of_nonneg _ (by omega)]
    norm_num
  have hkv := parse_kv_join ['t', 'l', 'i', 's', 't'] s (natToStr p) f d
    (by decide) hns (natToStr_no_semi p) hnf hnd
  have hverb2 : ∀ c ∈ ['t', 'a', 'c', 't', ':', 'd', 'o', 'n', 'e', ':'] ++ natToStr tid,
      c ≠ ';' := by
    intro c hc
    rcases List.mem_append.mp hc with hc | hc
    · exact (by decide :
        ∀ x ∈ ['t', 'a', 'c', 't', ':', 'd', 'o', 'n', 'e', ':'], x ≠ ';') c hc
    · exact natToStr_no_semi tid c hc
  have hkv2 := parse_kv_join (['t', 'a', 'c', 't', ':', 'd', 'o', 'n', 'e', ':'] ++ natToStr tid)
    s (natToStr p) f d hverb2 hns (natToStr_no_semi p) hnf hnd
  constructor
  · simp only [decode_list_nav, _join_kv, hip, hkv, ctx_from_kv_four,
      safe_int_natToStr p hp]
  · simp only [decode_act, _join_kv, hip]
    rw [hkv2]
    simp only [act_head_done tid, ctx_from_kv_four, safe_int_natToStr p hp]

/-- C4 witness at status o, page 2, priority filter A, date filter A,
task id 7. -/
theorem c4_codec_roundtrip_witness :
    decode_list_nav (_join_kv ['t', 'l', 'i', 's', 't'] ['o'] (2 : Int) ['A'] ['A']) =
        (['o'], (2 : Int), ['A'], ['A'])
      ∧ decode_act (_join_kv (['t', 'a', 'c', 't', ':', 'd', 'o', 'n', 'e', ':'] ++ natToStr 7)
            ['o'] (2 : Int) ['A'] ['A']) =
          (some (7 : Int), (['o'], (2 : Int), ['A'], ['A'])) := by
  have h := c4_codec_roundtrip ['o'] ['A'] ['A'] 2 7 (by decide) (by decide)
    (by decide) (by decide)
  exact_mod_cast h

/-! ## C3: decode totality and no mutation on invalid tokens -/

/-- C3: decoding a callback token is modelled by total functions
(`_parse_kv` and `act_head_task_id` return an explicit `none` where the
Python code catches the exception), and whenever the token is invalid the
`act_done` handler answers "invalid data" and performs no repository
mutation. -/
theorem c3_invalid_token_no_mutation (data : Str) (uid now : Int) (db : DB)
    (h : act_head_task_id (_parse_kv data).1 = none) :
    act_done_step data uid now db = (db, CbAnswer.invalidData) := by
  simp [act_done_step, h]

/-- C3 witness: a token with an unparseable id and a free-form garbage
token both leave the database untouched. -/
theorem c3_invalid_token_no_mutation_witness :
    act_done_step ['t', 'a', 'c', 't', ':', 'd', 'o', 'n', 'e', ':', 'x', 'x'] 1 0
        [sampleTask 1 1 none] = ([sampleTask 1 1 none], CbAnswer.invalidData)
      ∧ act_done_step ['g', 'a', 'r', 'b', 'a', 'g', 'e'] 1 0 [sampleTask 1 1 none] =
        ([sampleTask 1 1 none], CbAnswer.invalidData) :=
  ⟨c3_invalid_token_no_mutation _ 1 0 _ (by decide),
   c3_invalid_token_no_mutation _ 1 0 _ (by decide)⟩

/-! ## C9: the filter cycles are permutations of the filter codes -/

/-- C9: starting from any priority-filter code in A/H/M/L, applying the
priority cycle 4 times returns the original value; starting from any
date-filter code in A/T/W/O/N, applying the date cycle 5 times returns the
original value. -/
theorem c9_filter_cycles (c : Char) :
    ((c = 'A' ∨ c = 'H' ∨ c = 'M' ∨ c = 'L') →
      _PRIO_CYCLE (_PRIO_CYCLE (_PRIO_CYCLE (_PRIO_CYCLE c))) = c)
    ∧ ((c = 'A' ∨ c = 'T' ∨ c = 'W' ∨ c = 'O' ∨ c = 'N') →
      _DATE_CYCLE (_DATE_CYCLE (_DATE_CYCLE (_DATE_CYCLE (_DATE_CYCLE c)))) = c) := by
  constructor
  · rintro (rfl | rfl | rfl | rfl) <;> rfl
  · rintro (rfl | rfl | rfl | rfl | rfl) <;> rfl

/-- C9 witness at the codes H and W. -/
theorem c9_filter_cycles_witness :
    _PRIO_CYCLE (_PRIO_CYCLE (_PRIO_CYCLE (_PRIO_CYCLE 'H'))) = 'H'
    ∧ _DATE_CYCLE (_DATE_CYCLE (_DATE_CYCLE (_DATE_CYCLE (_DATE_CYCLE 'W')))) = 'W' :=
  ⟨(c9_filter_cycles 'H').1 (by decide), (c9_filter_cycles 'W').2 (by decide)⟩

/-! ## C5: pagination clamp -/

/-- C5: for pageSize at least 1 and totalCount at least 0, the code clamp
`_clamp_page` computes exactly the spec formula `clamp(requestedPage, 1,
ceil(totalCount / pageSize))` with `ceil(0 / pageSize)` treated as 1, and
whenever totalCount is positive the clamped page's 0-indexed offset
`(page - 1) * pageSize` is below totalCount. -/
theorem c5_pagination_clamp (page per_page total : Int)
    (hpp : 1 ≤ per_page) (ht : 0 ≤ total) :
    _clamp_page page per_page total = clamp_page_spec page per_page total
    ∧ (0 < total → (_clamp_page page per_page total - 1) * per_page < total) := by
  have hmx0 : max 0 total = total := max_eq_right ht
  have hmx1 : max 1 per_page = per_page := max_eq_right hpp
  simp only [_clamp_page, clamp_page_spec, hmx0, hmx1]
  set t : Nat := total.toNat with htdef
  set pp : Nat := per_page.toNat with hppdef
  set c : Nat := (t + pp - 1) / pp with hcdef
  have hppn : 1 ≤ pp := by omega
  have htot : (t : Int) = total := by omega
  have hppi : (pp : Int) = per_page := by omega
  have hcm : c * pp ≤ t + pp - 1 := Nat.div_mul_le_self _ _
  constructor
  · by_cases hpg : page = 0
    · simp only [hpg, if_pos]
      omega
    · rw [if_neg hpg]
      omega
  · intro htpos
    have htn : 1 ≤ t := by omega
    have hc1 : 1 ≤ c := by
      rw [hcdef, Nat.one_le_div_iff (by omega)]
      omega
    have hcmax : max 1 ((c : Int)) = (c : Int) := max_eq_right (by exact_mod_cast hc1)
    rw [hcmax]
    set p0 : Int := if page = 0 then 1 else page with hp0
    set P : Int := max 1 (min (max 1 p0) ((c : Int))) with hP
    have hP1 : 1 ≤ P := le_max_left _ _
    have hPle : P ≤ (c : Int) := by
      rw [hP]
      exact max_le (by exact_mod_cast hc1) (min_le_right _ _)
    have h2 : (P - 1) * per_page ≤ ((c : Int) - 1) * per_page :=
      mul_le_mul_of_nonneg_right (by omega) (by omega)
    have h3 : ((c * pp : Nat) : Int) ≤ ((t + pp - 1 : Nat) : Int) := by
      exact_mod_cast hcm
    rw [Nat.cast_sub (by omega)] at h3
    push_cast at h3
    rw [hppi, htot] at h3
    have h4 : ((c : Int) - 1) * per_page = (c : Int) * per_page - per_page := by ring
    linarith

/-- C5 witness: page 9 of 7 items with page size 5 clamps to page 2, whose
offset 5 is below 7. -/
theorem c5_pagination_clamp_witness :
    _clamp_page 9 5 7 = clamp_page_spec 9 5 7
    ∧ (_clamp_page 9 5 7 - 1) * 5 < 7 := by
  have h := c5_pagination_clamp 9 5 7 (by decide) (by decide)
  exact ⟨h.1, h.2 (by decide)⟩

/-! ## C1: double set_task_done (corrected) -/

/-- C1 counterexample: with two calls at clock values 100 and 200 the
second `set_task_done(done=True)` call overwrites `done_at` from 100 to
200, so `done_at` is not "set once". -/
theorem c1_counterexample :
    (set_task_done 100 1 1 true [sampleTask 1 1 none]).1.head?.map Task.done_at =
        some (some 100)
    ∧ (set_task_done 200 1 1 true
          (set_task_done 100 1 1 true [sampleTask 1 1 none]).1).1.head?.map Task.done_at =
        some (some 200)
    ∧ (set_task_done 200 1 1 true
          (set_task_done 100 1 1 true [sampleTask 1 1 none]).1).2 = true := by
  decide

/-- C1 amended: calling `set_task_done(done=True)` twice on an owned task
returns `true` the second time (never an error) and leaves the task with
`is_done = true` and `done_at` non-null, but `done_at` holds the second
call's clock value; the state is unchanged by the second call exactly when
the two calls observe the same clock value. -/
theorem taskMatches_setDoneUpd (tid uid now : Int) (done : Bool) (t : Task) :
    taskMatches tid uid (setDoneUpd now done t) = taskMatches tid uid t := rfl

theorem c1_double_done_amended (now1 now2 uid tid : Int) (db : DB)
    (h : db.any (taskMatches tid uid) = true) :
    (set_task_done now2 uid tid true (set_task_done now1 uid tid true db).1).2 = true
    ∧ (∀ t ∈ (set_task_done now2 uid tid true (set_task_done now1 uid tid true db).1).1,
        taskMatches tid uid t = true → t.is_done = true ∧ t.done_at = some now2)
    ∧ (now1 = now2 →
        (set_task_done now2 uid tid true (set_task_done now1 uid tid true db).1).1 =
          (set_task_done now1 uid tid true db).1) := by
  refine ⟨?_, ?_, ?_⟩
  · show ((set_task_done now1 uid tid true db).1.any (taskMatches tid uid)) = true
    simp only [set_task_done, List.any_map]
    have hcomp : ((taskMatches tid uid) ∘ fun t =>
        if taskMatches tid uid t then setDoneUpd now1 true t else t) =
        taskMatches tid uid := by
      funext t
      by_cases hm : taskMatches tid uid t
      · simp [Function.comp, hm, taskMatches_setDoneUpd]
      · simp [Function.comp, hm]
    rw [hcomp, h]
  · intro t htm hmt
    simp only [set_task_done, List.map_map] at htm
    rcases List.mem_map.mp htm with ⟨u, hu, rfl⟩
    simp only [Function.comp_apply] at hmt ⊢
    by_cases hm : taskMatches tid uid u
    · rw [if_pos hm, if_pos (by rw [taskMatches_setDoneUpd]; exact hm)]
      exact ⟨rfl, rfl⟩
    · rw [if_neg hm, if_neg hm] at hmt
      exact absurd hmt hm
  · intro hnow
    subst hnow
    simp only [set_task_done, List.map_map]
    apply List.map_congr_left
    intro u hu
    simp only [Function.comp_apply]
    by_cases hm : taskMatches tid uid u
    · rw [if_pos hm, if_pos (by rw [taskMatches_setDoneUpd]; exact hm)]
      rfl
    · rw [if_neg hm, if_neg hm]

/-- C1 witness: with equal clock values the second call is a no-op
returning true. -/
theorem c1_double_done_witness :
    (set_task_done 100 1 1 true (set_task_done 100 1 1 true [sampleTask 1 1 none]).1).2 = true
    ∧ (set_task_done 100 1 1 true (set_task_done 100 1 1 true [sampleTask 1 1 none]).1).1 =
        (set_task_done 100 1 1 true [sampleTask 1 1 none]).1 := by
  have h := c1_double_done_amended 100 100 1 1 [sampleTask 1 1 none] (by decide)
  exact ⟨h.1, h.2.2 rfl⟩

/-! ## C6: ownership isolation -/

theorem no_match_of_other_owner (tid uid : Int) (t0 : Task)
    (hid : t0.id = tid) (hown : t0.user_id ≠ uid) :
    ∀ (db : DB), (db.map Task.id).Nodup → t0 ∈ db →
      ∀ t ∈ db, taskMatches tid uid t = false := by
  intro db
  induction db with
  | nil =>
    intro _ h
    simp at h
  | cons a rest ih =>
    intro hnodup ht0 t htm
    simp only [List.map_cons, List.nodup_cons] at hnodup
    obtain ⟨hnotin, hnd⟩ := hnodup
    rcases List.mem_cons.mp ht0 with h0 | h0
    · subst h0
      rcases List.mem_cons.mp htm with h1 | h1
      · subst h1
        have hbe : (t.user_id == uid) = false := beq_eq_false_iff_ne.mpr hown
        simp [taskMatches, hbe]
      · by_cases hidt : t.id = tid
        · exact absurd (List.mem_map.mpr ⟨t, h1, by rw [hidt, hid]⟩) hnotin
        · have hbe : (t.id == tid) = false := beq_eq_false_iff_ne.mpr hidt
          simp [taskMatches, hbe]
    · rcases List.mem_cons.mp htm with h1 | h1
      · subst h1
        by_cases hidt : t.id = tid
        · exact absurd (List.mem_map.mpr ⟨t0, h0, by rw [hid, hidt]⟩) hnotin
        · have hbe : (t.id == tid) = false := beq_eq_false_iff_ne.mpr hidt
          simp [taskMatches, hbe]
      · exact ih hnd h0 t h1

/-- C6: when the task with the targeted id exists but belongs to a
different user, every mutating repository operation scoped by
`(taskId, userId)` returns "not affected" and leaves the whole table,
including the other user's row, unchanged. -/
theorem c6_ownership_isolation (now uid tid : Int) (done : Bool)
    (newContent : Str) (delta : PyVal) (db : DB) (t0 : Task)
    (hnodup : (db.map Task.id).Nodup) (ht0 : t0 ∈ db)
    (hid : t0.id = tid) (hown : t0.user_id ≠ uid) :
    set_task_done now uid tid done db = (db, false)
    ∧ delete_task_by_id uid tid db = (db, false)
    ∧ update_task_content now uid tid newContent db = (db, false)
    ∧ snooze_task_by_id now uid tid delta db = (db, false) := by
  have hno := no_match_of_other_owner tid uid t0 hid hown db hnodup ht0
  have hany : db.any (taskMatches tid uid) = false := by
    rw [List.any_eq_false]
    intro x hx
    rw [hno x hx]
    simp
  have hmapfix : ∀ (g : Task → Task),
      (db.map fun t => if taskMatches tid uid t then g t else t) = db := by
    intro g
    have hpt : ∀ t ∈ db, (if taskMatches tid uid t then g t else t) = t := by
      intro t ht
      rw [hno t ht]
      simp
    rw [List.map_congr_left hpt]
    exact List.map_id' db
  have hfilter : db.filter (fun t => !(taskMatches tid uid t)) = db := by
    rw [List.filter_eq_self]
    intro a ha
    rw [hno a ha]
    rfl
  have hfind : db.find? (taskMatches tid uid) = none := by
    rw [List.find?_eq_none]
    intro x hx
    rw [hno x hx]
    simp
  refine ⟨?_, ?_, ?_, ?_⟩
  · simp [set_task_done, hany, hmapfix]
  · simp [delete_task_by_id, hany, hfilter]
  · simp [update_task_content, hany, hmapfix]
  · simp [snooze_task_by_id, hfind]

/-- C6 witness: task 1 belongs to user 2; user 1's mutations all return
false and change nothing. -/
theorem c6_ownership_isolation_witness :
    set_task_done 0 1 1 true [sampleTask 1 2 none] = ([sampleTask 1 2 none], false)
    ∧ delete_task_by_id 1 1 [sampleTask 1 2 none] = ([sampleTask 1 2 none], false)
    ∧ update_task_content 0 1 1 ['x', 'y', 'z'] [sampleTask 1 2 none] =
        ([sampleTask 1 2 none], false)
    ∧ snooze_task_by_id 0 1 1 (PyVal.vint 60) [sampleTask 1 2 none] =
        ([sampleTask 1 2 none], false) :=
  c6_ownership_isolation 0 1 1 true ['x', 'y', 'z'] (PyVal.vint 60)
    [sampleTask 1 2 none] (sampleTask 1 2 none) (by decide) (by decide)
    (by decide) (by decide)

/-! ## C7 and C10: snooze -/

theorem snooze_found (now uid tid : Int) (val : PyVal) (db : DB) (t : Task)
    (hfind : db.find? (taskMatches tid uid) = some t) :
    (snooze_task_by_id now uid tid val db).2 = true
    ∧ ∀ u ∈ (snooze_task_by_id now uid tid val db).1,
        taskMatches tid uid u = true →
          u.due_date = some (t.due_date.getD now + _coerce_positive_int val 15 1) := by
  have hmem := List.mem_of_find?_eq_some hfind
  have hpred : taskMatches tid uid t = true := List.find?_some hfind
  have hany : db.any (taskMatches tid uid) = true :=
    List.any_eq_true.mpr ⟨t, hmem, hpred⟩
  constructor
  · simp [snooze_task_by_id, hfind, hany]
  · intro u hu hmu
    simp only [snooze_task_by_id, hfind] at hu
    rcases List.mem_map.mp hu with ⟨w, hw, rfl⟩
    by_cases hm : taskMatches tid uid w
    · rw [if_pos hm]
    · rw [if_neg hm] at hmu
      exact absurd hmu hm

/-- C7: for a positive delta, `snooze_task_by_id` moves the matching
task's due date to (existing due date, or now when null) plus the delta in
minutes, and returns false without mutating anything when no owned task
matches. -/
theorem c7_snooze_semantics (now uid tid delta : Int) (db : DB)
    (hdelta : 1 ≤ delta) :
    (∀ t, db.find? (taskMatches tid uid) = some t →
      (snooze_task_by_id now uid tid (PyVal.vint delta) db).2 = true
      ∧ ∀ u ∈ (snooze_task_by_id now uid tid (PyVal.vint delta) db).1,
          taskMatches tid uid u = true →
            u.due_date = some (t.due_date.getD now + delta))
    ∧ (db.find? (taskMatches tid uid) = none →
        snooze_task_by_id now uid tid (PyVal.vint delta) db = (db, false)) := by
  constructor
  · intro t hfind
    have hco : _coerce_positive_int (PyVal.vint delta) 15 1 = delta := by
      simp only [_coerce_positive_int]
      omega
    have h := snooze_found now uid tid (PyVal.vint delta) db t hfind
    rw [hco] at h
    exact h
  · intro hnone
    simp [snooze_task_by_id, hnone]

/-- C7 witness: snoozing a task due at minute 28928760 of the epoch
(2025-01-01T10:00Z) by 60 minutes yields minute 28928820
(2025-01-01T11:00Z); snoozing a task with no due date by 15 minutes at
"now" 28928760 yields 28928775; a missing task yields false untouched. -/
theorem c7_snooze_semantics_witness :
    (snooze_task_by_id 0 1 1 (PyVal.vint 60) [sampleTask 1 1 (some 28928760)]).2 = true
    ∧ (snooze_task_by_id 0 1 1 (PyVal.vint 60)
        [sampleTask 1 1 (some 28928760)]).1.head?.map Task.due_date =
          some (some 28928820)
    ∧ (snooze_task_by_id 28928760 1 1 (PyVal.vint 15)
        [sampleTask 1 1 none]).1.head?.map Task.due_date = some (some 28928775)
    ∧ snooze_task_by_id 0 1 1 (PyVal.vint 60) ([] : DB) = ([], false) := by
  have h1 := (c7_snooze_semantics 0 1 1 60 [sampleTask 1 1 (some 28928760)]
    (by decide)).1 (sampleTask 1 1 (some 28928760)) rfl
  have h2 := (c7_snooze_semantics 28928760 1 1 15 [sampleTask 1 1 none]
    (by decide)).1 (sampleTask 1 1 none) rfl
  have h3 := (c7_snooze_semantics 0 1 1 60 ([] : DB) (by decide)).2 rfl
  refine ⟨h1.1, ?_, ?_, h3⟩
  · have hv := h1.2
      { id := 1
        user_id := 1
        content := ['a', 'b', 'c']
        due_date := some (28928760 + 60)
        priority := TaskPriority.MEDIUM
        is_done := false
        created_at := 0
        updated_at := 0
        done_at := none } (by decide) (by decide)
    exact (by decide : (snooze_task_by_id 0 1 1 (PyVal.vint 60)
        [sampleTask 1 1 (some 28928760)]).1.head?.map Task.due_date =
          some (some (28928760 + 60))).trans (by decide)
  · have hv := h2.2
      { id := 1
        user_id := 1
        content := ['a', 'b', 'c']
        due_date := some (28928760 + 15)
        priority := TaskPriority.MEDIUM
        is_done := false
        created_at := 0
        updated_at := 28928760
        done_at := none } (by decide) (by decide)
    exact (by decide : (snooze_task_by_id 28928760 1 1 (PyVal.vint 15)
        [sampleTask 1 1 none]).1.head?.map Task.due_date =
          some (some (28928760 + 15))).trans (by decide)

/-- C10: the snooze delta is coerced to a positive number of minutes (at
least 1, exactly 15 for an unparseable string or missing value), so a
successful snooze always moves the matching task's due date strictly
later than its base (existing due date or now). -/
theorem c10_snooze_coercion (val : PyVal) :
    1 ≤ _coerce_positive_int val 15 1
    ∧ (∀ s, pyInt s = none → _coerce_positive_int (PyVal.vstr s) 15 1 = 15)
    ∧ _coerce_positive_int PyVal.vnone 15 1 = 15
    ∧ ∀ (now uid tid : Int) (db : DB) (t : Task),
        db.find? (taskMatches tid uid) = some t →
          (snooze_task_by_id now uid tid val db).2 = true
          ∧ ∀ u ∈ (snooze_task_by_id now uid tid val db).1,
              taskMatches tid uid u = true →
                u.due_date = some (t.due_date.getD now + _coerce_positive_int val 15 1)
                ∧ t.due_date.getD now <
                    t.due_date.getD now + _coerce_positive_int val 15 1 := by
  have hge : 1 ≤ _coerce_positive_int val 15 1 := by
    cases val with
    | vnone => simp [_coerce_positive_int]
    | vint i => exact le_max_left 1 i
    | vstr s =>
      cases h : pyInt s with
      | some x =>
        simp only [_coerce_positive_int, h]
        exact le_max_left 1 x
      | none => simp [_coerce_positive_int, h]
  refine ⟨hge, ?_, ?_, ?_⟩
  · intro s hnone
    simp [_coerce_positive_int, hnone]
  · rfl
  · intro now uid tid db t hfind
    have h := snooze_found now uid tid val db t hfind
    exact ⟨h.1, fun u hu hmu => ⟨h.2 u hu hmu, by omega⟩⟩

/-- C10 witness: for the unparseable delta string "zz" the coerced delta
is 15 and a successful snooze at "now" 100 moves the null due date to 115,
strictly later than the base 100. -/
theorem c10_snooze_coercion_witness :
    1 ≤ _coerce_positive_int (PyVal.vstr ['z', 'z']) 15 1
    ∧ _coerce_positive_int (PyVal.vstr ['z', 'z']) 15 1 = 15
    ∧ _coerce_positive_int PyVal.vnone 15 1 = 15
    ∧ (snooze_task_by_id 100 1 1 (PyVal.vstr ['z', 'z'])
        [sampleTask 1 1 none]).2 = true
    ∧ (snooze_task_by_id 100 1 1 (PyVal.vstr ['z', 'z'])
        [sampleTask 1 1 none]).1.head?.map Task.due_date = some (some 115) := by
  have h := c10_snooze_coercion (PyVal.vstr ['z', 'z'])
  have h4 := h.2.2.2 100 1 1 [sampleTask 1 1 none] (sampleTask 1 1 none) rfl
  have hv := h4.2
    { id := 1
      user_id := 1
      content := ['a', 'b', 'c']
      due_date := some 115
      priority := TaskPriority.MEDIUM
      is_done := false
      created_at := 0
      updated_at := 100
      done_at := none } (by decide) (by decide)
  exact ⟨h.1, h.2.1 ['z', 'z'] (by decide), h.2.2.1, h4.1, by decide⟩

/-! ## C8: the done_at/is_done invariant is preserved -/

theorem all_inv_map (tid uid : Int) (g : Task → Task) (db : DB)
    (hdb : dbInvB db = true)
    (hg : ∀ t, taskInvB t = true → taskInvB (g t) = true) :
    dbInvB (db.map fun t => if taskMatches tid uid t then g t else t) = true := by
  rw [dbInvB, List.all_eq_true] at hdb ⊢
  intro x hx
  rcases List.mem_map.mp hx with ⟨u, hu, rfl⟩
  by_cases hm : taskMatches tid uid u
  · rw [if_pos hm]
    exact hg u (hdb u hu)
  · rw [if_neg hm]
    exact hdb u hu

/-- C8: every repository operation preserves the invariant that `done_at`
is non-null exactly when `is_done` is true: `create_task` establishes it,
`set_task_done` re-establishes it for both directions, and delete, content
update, snooze, priority and due-date updates never break it. -/
theorem c8_done_at_invariant (now nid uid tid : Int) (done : Bool)
    (content newContent : Str) (due : Option Int) (prio : TaskPriority)
    (delta : PyVal) (db : DB) (h : dbInvB db = true) :
    dbInvB (create_task now nid uid content due prio db).1 = true
    ∧ dbInvB (set_task_done now uid tid done db).1 = true
    ∧ dbInvB (delete_task_by_id uid tid db).1 = true
    ∧ dbInvB (update_task_content now uid tid newContent db).1 = true
    ∧ dbInvB (snooze_task_by_id now uid tid delta db).1 = true
    ∧ dbInvB (set_task_priority now uid tid prio db).1 = true
    ∧ dbInvB (set_task_due_date now uid tid due db).1 = true := by
  refine ⟨?_, ?_, ?_, ?_, ?_, ?_, ?_⟩
  · simp only [create_task, dbInvB, List.all_append, Bool.and_eq_true]
    exact ⟨h, by simp [taskInvB]⟩
  · exact all_inv_map tid uid _ db h (fun t _ => by cases done <;> rfl)
  · simp only [delete_task_by_id]
    rw [dbInvB, List.all_eq_true]
    rw [dbInvB, List.all_eq_true] at h
    intro x hx
    exact h x (List.mem_of_mem_filter hx)
  · exact all_inv_map tid uid _ db h (fun t ht => ht)
  · cases hf : db.find? (taskMatches tid uid) with
    | none => simpa [snooze_task_by_id, hf] using h
    | some t =>
      simp only [snooze_task_by_id, hf]
      exact all_inv_map tid uid _ db h (fun u hu => hu)
  · exact all_inv_map tid uid _ db h (fun t ht => ht)
  · exact all_inv_map tid uid _ db h (fun t ht => ht)

/-- C8 witness on a one-row table. -/
theorem c8_done_at_invariant_witness :
    dbInvB (create_task 0 2 1 ['x', 'y', 'z'] none TaskPriority.HIGH
        [sampleTask 1 1 none]).1 = true
    ∧ dbInvB (set_task_done 5 1 1 true [sampleTask 1 1 none]).1 = true
    ∧ dbInvB (delete_task_by_id 1 1 [sampleTask 1 1 none]).1 = true
    ∧ dbInvB (update_task_content 5 1 1 ['x', 'y', 'z'] [sampleTask 1 1 none]).1 = true
    ∧ dbInvB (snooze_task_by_id 5 1 1 (PyVal.vint 60) [sampleTask 1 1 none]).1 = true
    ∧ dbInvB (set_task_priority 5 1 1 TaskPriority.HIGH [sampleTask 1 1 none]).1 = true
    ∧ dbInvB (set_task_due_date 5 1 1 (some 7) [sampleTask 1 1 none]).1 = true :=
  c8_done_at_invariant 5 2 1 1 true ['x', 'y', 'z'] ['x', 'y', 'z'] (some 7)
    TaskPriority.HIGH (PyVal.vint 60) [sampleTask 1 1 none] (by decide)

/-! ## C2: creation validation -/

theorem normalize_le_255 (s : Str) : (_normalize_content s).length ≤ 255 := by
  unfold _normalize_content
  by_cases h : 255 < (joinSpace (pySplitWS (pyStrip s))).length
  · rw [if_pos h]
    simp [List.length_take]
  · rw [if_neg h]
    omega

/-- C2: the add-task creation flow trims and caps the content (via
`_normalize_content`) and rejects any input whose normalized content is
below the 3-character minimum without storing anything; every task it does
store has the normalized content, with length between 3 and 255. -/
theorem c2_create_validation (now nid uid : Int) (text : Str) (due : Option Int)
    (prio : TaskPriority) (db : DB) :
    ((_normalize_content text).length < 3 →
      receive_content_create now nid uid text due prio db = none)
    ∧ ∀ r, receive_content_create now nid uid text due prio db = some r →
        r.2.content = _normalize_content text
        ∧ 3 ≤ r.2.content.length ∧ r.2.content.length ≤ 255
        ∧ r.1 = db ++ [r.2] := by
  constructor
  · intro h
    simp [receive_content_create, h]
  · intro r hr
    by_cases h : (_normalize_content text).length < 3
    · simp [receive_content_create, h] at hr
    · simp only [receive_content_create, if_neg h, Option.some.injEq] at hr
      subst hr
      refine ⟨?_, ?_, ?_, rfl⟩
      · show (_normalize_content text).take 255 = _normalize_content text
        exact List.take_of_length_le (normalize_le_255 text)
      · show 3 ≤ ((_normalize_content text).take 255).length
        rw [List.take_of_length_le (normalize_le_255 text)]
        omega
      · show ((_normalize_content text).take 255).length ≤ 255
        rw [List.take_of_length_le (normalize_le_255 text)]
        exact normalize_le_255 text

/-- C2 witness: the input `" ab "` normalizes to 2 characters and is
rejected with nothing stored; `" buy  milk "` is stored as the normalized
8-character content "buy milk". -/
theorem c2_create_validation_witness :
    receive_content_create 0 1 1 [' ', 'a', 'b', ' '] none TaskPriority.MEDIUM [] = none
    ∧ milkTask.content =
        _normalize_content [' ', 'b', 'u', 'y', ' ', ' ', 'm', 'i', 'l', 'k', ' ']
    ∧ 3 ≤ milkTask.content.length ∧ milkTask.content.length ≤ 255 := by
  have h0 := (c2_create_validation 0 1 1 [' ', 'a', 'b', ' '] none
    TaskPriority.MEDIUM []).1 (by decide)
  have h := (c2_create_validation 0 1 1
    [' ', 'b', 'u', 'y', ' ', ' ', 'm', 'i', 'l', 'k', ' '] none
    TaskPriority.MEDIUM []).2 ([milkTask], milkTask) (by decide)
  exact ⟨h0, h.1, h.2.1, h.2.2.1⟩

end DoTaskBot
